import Mathlib

/-!
Verification of the DAGNN implementation
(`graphgallery/nn/models/semisupervised/tf_models/dagnn.py`).

The development has two parts:

* a shallow embedding of the Python-level control flow of the module
  (name resolution in `DAGNN.__init__`, `DAGNN.build` and
  `DAGNN.preprocess`), translated statement by statement from the source
  file; and

* a shallow embedding of the numeric forward pipeline (feature encoder,
  the adaptive propagation operator `PropConvolution`, the `Gather`
  readout).  The layer classes `PropConvolution` and `Gather` live in
  `graphgallery.nn.layers`, whose source is not part of this repository
  snapshot, so those definitions are modelled from the specification's
  algorithm (spec section 4.2 and 4.3) over exact real arithmetic,
  with matrices as lists of rows.
-/

/-! ## Python-level model: errors, names, scopes -/

/-- The error kinds relevant to the claims. -/
inductive PyError
  | nameError
  | configurationError
  | indexError
  | shapeError
  deriving DecidableEq, Repr

/-- The names bound at module level in `dagnn.py`: the `import` block
(lines 1-13) plus the class statement itself.  Translated from the
source imports. -/
def dagnnModuleGlobals : List String :=
  ["tf", "Model", "Input", "Dropout", "Dense", "Adam", "regularizers",
   "SparseCategoricalCrossentropy", "PropConvolution", "Gather",
   "SemiSupervisedModel", "FullBatchNodeSequence", "EqualVarLength",
   "astensors", "asintarr", "normalize_x", "normalize_adj", "Bunch",
   "DAGNN"]

/-- A representative list of Python builtin names (the full builtin
namespace contains none of the names this module fails to resolve, so
any superset-free representative list is faithful for the claims). -/
def pyBuiltins : List String :=
  ["print", "len", "locals", "super", "range", "isinstance", "int",
   "float", "str", "list", "dict", "tuple", "zip", "enumerate", "getattr",
   "setattr", "type", "object"]

/-- Python name resolution for code in this module: local scope, then
module globals, then builtins. -/
def resolves (localNames : List String) (n : String) : Bool :=
  localNames.contains n || dagnnModuleGlobals.contains n || pyBuiltins.contains n

/-- The local names bound in the scope of `DAGNN.__init__`: the formal
parameters.  The body only assigns to attributes of `self`
(`self.norm_adj = ...` etc.), which binds no new local name. -/
def dagnnInitLocals : List String :=
  ["self", "graph", "norm_adj", "norm_x", "K", "device", "seed", "name",
   "kwargs"]

/-- A Python value that is either `None` or a float, used for the
`norm_adj` argument; floats are modelled as exact rationals. -/
inductive PyFloatOrNone
  | none
  | val (q : ℚ)
  deriving DecidableEq, Repr

/-- Python truthiness for an optional float: `None`, `0` and `0.0` are
falsy, every other float is truthy. -/
def pyTruthy : PyFloatOrNone → Bool
  | PyFloatOrNone.none => false
  | PyFloatOrNone.val q => q ≠ 0

/-- The attribute state a successful `DAGNN.__init__` would produce. -/
structure DAGNNState where
  norm_adj : PyFloatOrNone
  norm_x : Option String
  K : Int
  deriving DecidableEq, Repr

/-- Shallow embedding of `DAGNN.__init__` (source lines 22-56).  After
`super().__init__(...)` (a collaborator outside this file, passed in as
`superInit`) and the three attribute assignments, the body ends with the
statement `self.preprocess(adj, x)`.  Evaluating its argument
expressions requires resolving the names `adj` and `x` in the
enclosing scopes; if either fails to resolve, Python raises `NameError`
at that point and construction aborts. -/
def dagnnInit (superInit : Except PyError Unit)
    (norm_adj : PyFloatOrNone) (norm_x : Option String) (K : Int)
    (_device : String) (_seed : Option Int) (_name : Option String) :
    Except PyError DAGNNState :=
  match superInit with
  | Except.error e => Except.error e
  | Except.ok _ =>
    if resolves dagnnInitLocals "adj" && resolves dagnnInitLocals "x" then
      Except.ok ⟨norm_adj, norm_x, K⟩
    else
      Except.error PyError.nameError

/-- The local names in scope inside `DAGNN.build`: formal parameters and
the variables assigned in the body. -/
def dagnnBuildLocals : List String :=
  ["self", "hiddens", "activations", "dropouts", "l2_norms", "lr",
   "use_bias", "local_paras", "paras", "x", "adj", "index", "h", "hid",
   "activation", "dropout", "l2_norm", "model"]

/-- The sequence of non-local name references evaluated by the body of
`DAGNN.build` (source lines 71-108), in statement order: `locals()`,
`Bunch(**local_paras)`, `set_equal_in_length(...)`, the second `Bunch`,
then the `tf.device` block with the `Input`/`Dense`/`Dropout`/
`PropConvolution`/`Gather`/`Model` layer constructions and `compile`. -/
def buildNameRefs : List String :=
  ["locals", "Bunch", "set_equal_in_length", "Bunch", "tf", "Input",
   "Input", "Input", "Dense", "regularizers", "Dropout", "Dense",
   "regularizers", "Dropout", "PropConvolution", "regularizers", "Gather",
   "Model", "SparseCategoricalCrossentropy", "Adam"]

/-- The names whose evaluation constructs a layer of the model. -/
def layerCtorNames : List String :=
  ["Dense", "Dropout", "PropConvolution", "Gather", "Model"]

/-- Shallow embedding of the control flow of `DAGNN.build`: execution
proceeds through `buildNameRefs` in order and raises `NameError` at the
first name that resolves in no scope; only if every reference resolves
does a compiled model result.  The configuration arguments play no role
before the first failing reference. -/
def dagnnBuild (_hiddens : List ℕ) (_activations : List String)
    (_dropouts : List ℚ) (_l2_norms : List ℚ) (_lr : ℚ)
    (_use_bias : Bool) : Except PyError Unit :=
  match buildNameRefs.find? (fun n => !resolves dagnnBuildLocals n) with
  | some _ => Except.error PyError.nameError
  | none => Except.ok ()

/-- Shallow embedding of the adjacency branch of `DAGNN.preprocess`
(source lines 58-69): `if self.norm_adj: adj = normalize_adj(adj,
self.norm_adj)`.  `normalize_adj` lives outside this file and is passed
in abstractly; the function returns the adjacency value that the method
goes on to hand to `astensors`. -/
def preprocessAdj {Adj : Type} (normalize_adj : Adj → ℚ → Adj)
    (norm_adj : PyFloatOrNone) (adj : Adj) : Adj :=
  if pyTruthy norm_adj then
    match norm_adj with
    | PyFloatOrNone.val q => normalize_adj adj q
    | PyFloatOrNone.none => adj
  else
    adj

/-! ## Numeric model: vectors and matrices as lists over ℝ

Matrices are lists of rows; a node-representation tensor of shape
(n, d) is a list of n rows, each a list of d reals. -/

/-- Dot product of two vectors. -/
def dotR (u v : List ℝ) : ℝ :=
  (List.zipWith (fun a b => a * b) u v).sum

/-- Scalar multiple of a vector. -/
noncomputable def smulVec (c : ℝ) (v : List ℝ) : List ℝ :=
  v.map (fun a => c * a)

/-- Elementwise sum of two vectors. -/
noncomputable def addVec (u v : List ℝ) : List ℝ :=
  List.zipWith (fun a b => a + b) u v

/-- The zero vector of length `d`. -/
def zeroVec (d : ℕ) : List ℝ :=
  List.replicate d 0

/-- Linear combination `Σ_k c_k · rows_k`, producing a vector of length
`d` (the common row length). -/
noncomputable def lcomb (d : ℕ) : List ℝ → List (List ℝ) → List ℝ
  | [], _ => zeroVec d
  | _ :: _, [] => zeroVec d
  | c :: cs, v :: vs => addVec (smulVec c v) (lcomb d cs vs)

/-- Matrix product `A · H`: row `i` of the result is the linear
combination of the rows of `H` weighted by row `i` of `A`.  `d` is the
row length of `H`. -/
noncomputable def matMul (d : ℕ) (A H : List (List ℝ)) : List (List ℝ) :=
  A.map (fun arow => lcomb d arow H)

/-! ## The adaptive propagation operator (`PropConvolution`)

Modelled from the spec: the layer class `PropConvolution` is imported
from `graphgallery.nn.layers`, whose source is not under `src/`; the
definitions below follow the algorithm of spec section 4.2:
`H_t = A · H_{t-1}`, per-node per-step gates `g_t = σ(W_g · H_t + b)`
with logistic `σ`, and output `Σ_t g_t · H_t`. -/

/-- The logistic (sigmoid) nonlinearity. -/
noncomputable def sigmoid (z : ℝ) : ℝ :=
  1 / (1 + Real.exp (-z))

/-- Modelled from the spec: the retention gate for a node whose current
representation row is `r`: `σ(W_g · r + b)`. -/
noncomputable def gate (W : List ℝ) (b : ℝ) (r : List ℝ) : ℝ :=
  sigmoid (dotR W r + b)

/-- The diffusion recurrence: `diffuse d A H0 t` is `H_t`, i.e. `A`
applied `t` times to `H0`. -/
noncomputable def diffuse (d : ℕ) (A H0 : List (List ℝ)) : ℕ → List (List ℝ)
  | 0 => H0
  | t + 1 => matMul d A (diffuse d A H0 t)

/-- The stacked representations of one node: for `t = 0..K`, row `n` of
`H_t` (spec step 3, read per node). -/
noncomputable def stackRows (d : ℕ) (A H0 : List (List ℝ)) (K n : ℕ) :
    List (List ℝ) :=
  (List.range (K + 1)).map (fun t => (diffuse d A H0 t).getD n [])

/-- The gated combination for one node: `Σ_t gate(H_t[n]) · H_t[n]`
over that node's stacked rows (spec steps 4-5). -/
noncomputable def gatedRow (W : List ℝ) (b : ℝ) (d : ℕ)
    (rows : List (List ℝ)) : List ℝ :=
  (rows.map (fun r => smulVec (gate W b r) r)).foldr addVec (zeroVec d)

/-- Modelled from the spec: the adaptive propagation operator
(`PropConvolution`).  `d` is the class dimension, `K` the step count,
`W`/`b` the gate weight vector and bias, `A` the normalized adjacency
operator and `H0` the encoder output. -/
noncomputable def propConv (d K : ℕ) (W : List ℝ) (b : ℝ)
    (A H0 : List (List ℝ)) : List (List ℝ) :=
  (List.range H0.length).map (fun n => gatedRow W b d (stackRows d A H0 K n))

/-- Modelled from the spec: the layer rejects a non-positive step count
`K` with a `ConfigurationError` before performing any propagation
(spec section 4.2 failure modes). -/
noncomputable def propConvChecked (d : ℕ) (K : Int) (W : List ℝ) (b : ℝ)
    (A H0 : List (List ℝ)) : Except PyError (List (List ℝ)) :=
  if K ≤ 0 then Except.error PyError.configurationError
  else Except.ok (propConv d K.toNat W b A H0)

/-! ## Gather readout and forward assembly -/

/-- Modelled from the spec: the `Gather` layer (spec section 4.3): given
the node-indexed output tensor and an ordered index sequence, return the
selected rows in order; an out-of-range index raises `IndexError`. -/
def gatherRows (T : List (List ℝ)) (idx : List ℕ) :
    Except PyError (List (List ℝ)) :=
  if idx.all (fun i => i < T.length) then
    Except.ok (idx.map (fun i => T.getD i []))
  else
    Except.error PyError.indexError

/-- One dense block of the feature encoder (spec section 4.1): a weight
matrix (input dimension × `outDim`) and a pointwise nonlinearity.  Bias
is omitted (`use_bias` defaults to false in `build`); at inference time
dropout is the identity, so it does not appear in the forward map. -/
structure DenseLayer where
  outDim : ℕ
  weight : List (List ℝ)
  act : ℝ → ℝ

/-- Apply one dense block: each row `r` of `H` becomes
`act(r · weight)`. -/
noncomputable def denseApply (L : DenseLayer) (H : List (List ℝ)) :
    List (List ℝ) :=
  H.map (fun r => (lcomb L.outDim r L.weight).map L.act)

/-- The feature encoder: the dense blocks applied in order. -/
noncomputable def encoderApply (layers : List DenseLayer)
    (H : List (List ℝ)) : List (List ℝ) :=
  layers.foldl (fun acc L => denseApply L acc) H

/-- The inference-time forward computation assembled as in `DAGNN.build`
and `DAGNN.predict`: encoder, then the propagation operator, then the
index gather (spec section 4.4).  Dropout is inactive at inference, so
the map is a pure function of weights and inputs. -/
noncomputable def forwardDAGNN (layers : List DenseLayer) (d K : ℕ)
    (W : List ℝ) (b : ℝ) (A X : List (List ℝ)) (idx : List ℕ) :
    Except PyError (List (List ℝ)) :=
  gatherRows (propConv d K W b A (encoderApply layers X)) idx

/-! ## Helper lemmas: shapes -/

lemma smulVec_length (c : ℝ) (v : List ℝ) : (smulVec c v).length = v.length := by
  simp [smulVec]

lemma addVec_length (u v : List ℝ) :
    (addVec u v).length = min u.length v.length := by
  simp [addVec]

lemma zeroVec_length (d : ℕ) : (zeroVec d).length = d := by
  simp [zeroVec]

lemma lcomb_length (d : ℕ) (c : List ℝ) (H : List (List ℝ))
    (hH : ∀ r ∈ H, r.length = d) : (lcomb d c H).length = d := by
  induction c generalizing H with
  | nil => simp [lcomb, zeroVec]
  | cons a cs ih =>
    cases H with
    | nil => simp [lcomb, zeroVec]
    | cons v vs =>
      have hv : v.length = d := hH v (by simp)
      have hrest : (lcomb d cs vs).length = d :=
        ih vs (fun r hr => hH r (by simp [hr]))
      simp [lcomb, addVec_length, smulVec_length, hv, hrest]

lemma matMul_length (d : ℕ) (A H : List (List ℝ)) :
    (matMul d A H).length = A.length := by
  simp [matMul]

lemma matMul_rect (d : ℕ) (A H : List (List ℝ))
    (hH : ∀ r ∈ H, r.length = d) : ∀ r ∈ matMul d A H, r.length = d := by
  intro r hr
  simp only [matMul, List.mem_map] at hr
  obtain ⟨arow, _, rfl⟩ := hr
  exact lcomb_length d arow H hH

lemma diffuse_length (d : ℕ) (A H0 : List (List ℝ))
    (hA : A.length = H0.length) (t : ℕ) :
    (diffuse d A H0 t).length = H0.length := by
  cases t with
  | zero => rfl
  | succ t => simp [diffuse, matMul_length, hA]

lemma diffuse_rect (d : ℕ) (A H0 : List (List ℝ))
    (hH : ∀ r ∈ H0, r.length = d) (t : ℕ) :
    ∀ r ∈ diffuse d A H0 t, r.length = d := by
  induction t with
  | zero => exact hH
  | succ t ih => exact matMul_rect d A (diffuse d A H0 t) ih

lemma stackRows_rect (d : ℕ) (A H0 : List (List ℝ)) (K n : ℕ)
    (hn : n < H0.length) (hA : A.length = H0.length)
    (hH : ∀ r ∈ H0, r.length = d) :
    ∀ r ∈ stackRows d A H0 K n, r.length = d := by
  intro r hr
  simp only [stackRows, List.mem_map] at hr
  obtain ⟨t, _, rfl⟩ := hr
  have hlen : n < (diffuse d A H0 t).length := by
    rw [diffuse_length d A H0 hA t]; exact hn
  rw [List.getD_eq_getElem _ _ hlen]
  exact diffuse_rect d A H0 hH t _ (List.getElem_mem hlen)

lemma gatedRow_length (W : List ℝ) (b : ℝ) (d : ℕ) (rows : List (List ℝ))
    (hrows : ∀ r ∈ rows, r.length = d) : (gatedRow W b d rows).length = d := by
  induction rows with
  | nil => simp [gatedRow, zeroVec]
  | cons r rs ih =>
    have hr : r.length = d := hrows r (by simp)
    have hrest : (gatedRow W b d rs).length = d :=
      ih (fun s hs => hrows s (by simp [hs]))
    show (addVec (smulVec (gate W b r) r) (gatedRow W b d rs)).length = d
    rw [addVec_length, smulVec_length, hr, hrest, min_self]

/-! ## Helper lemmas: vector algebra -/

lemma addVec_zero_right (v : List ℝ) : addVec v (zeroVec v.length) = v := by
  induction v with
  | nil => rfl
  | cons a as ih => simpa [addVec, zeroVec, List.replicate_succ] using ih

lemma smulVec_one (v : List ℝ) : smulVec 1 v = v := by
  simp [smulVec]

lemma addVec_smulVec_zero (v w : List ℝ) (h : w.length = v.length) :
    addVec (smulVec 0 v) w = w := by
  induction v generalizing w with
  | nil => cases w with
    | nil => rfl
    | cons b bs => simp at h
  | cons a as ih =>
    cases w with
    | nil => simp at h
    | cons b bs =>
      simp only [List.length_cons, Nat.succ_inj] at h
      simpa [addVec, smulVec] using ih bs h

lemma smulVec_add_distrib (a c : ℝ) (v : List ℝ) :
    addVec (smulVec a v) (smulVec c v) = smulVec (a + c) v := by
  induction v with
  | nil => rfl
  | cons x xs ih =>
    show (a * x + c * x) :: addVec (smulVec a xs) (smulVec c xs) =
      ((a + c) * x) :: smulVec (a + c) xs
    rw [ih, add_mul]

/-! ## Helper lemmas: one propagation step and the identity matrix -/

lemma matMul_row_length (d : ℕ) (A H : List (List ℝ)) (n : ℕ)
    (hn : n < A.length) (hH : ∀ r ∈ H, r.length = d) :
    ((matMul d A H).getD n []).length = d := by
  have hlen : n < (matMul d A H).length := by rw [matMul_length]; exact hn
  rw [List.getD_eq_getElem _ _ hlen]
  exact matMul_rect d A H hH _ (List.getElem_mem hlen)

/-- Unfolding of the operator at `K = 1`: each output row is the gated
sum of the node's row of `H0` and its row of `A · H0`. -/
lemma propConv_one_step (d : ℕ) (W : List ℝ) (b : ℝ) (A H0 : List (List ℝ))
    (hA : A.length = H0.length) (hH : ∀ r ∈ H0, r.length = d) :
    propConv d 1 W b A H0 = (List.range H0.length).map (fun n =>
      addVec (smulVec (gate W b (H0.getD n [])) (H0.getD n []))
        (smulVec (gate W b ((matMul d A H0).getD n []))
          ((matMul d A H0).getD n []))) := by
  unfold propConv
  apply List.map_congr_left
  intro n hn
  rw [List.mem_range] at hn
  have hstack : stackRows d A H0 1 n =
      [H0.getD n [], (matMul d A H0).getD n []] := by
    simp [stackRows, List.range_succ, diffuse]
  rw [hstack]
  show addVec (smulVec (gate W b (H0.getD n [])) (H0.getD n []))
      (addVec (smulVec (gate W b ((matMul d A H0).getD n []))
        ((matMul d A H0).getD n [])) (zeroVec d)) = _
  have hrow : ((matMul d A H0).getD n []).length = d :=
    matMul_row_length d A H0 n (hA ▸ hn) hH
  have hz : addVec (smulVec (gate W b ((matMul d A H0).getD n []))
      ((matMul d A H0).getD n [])) (zeroVec d) =
      smulVec (gate W b ((matMul d A H0).getD n []))
        ((matMul d A H0).getD n []) := by
    have := addVec_zero_right (smulVec (gate W b ((matMul d A H0).getD n []))
      ((matMul d A H0).getD n []))
    rwa [smulVec_length, hrow] at this
  rw [hz]

/-- The 2 × 2 identity matrix. -/
def id2 : List (List ℝ) := [[1, 0], [0, 1]]

lemma matMul_id2 (d : ℕ) (H0 : List (List ℝ)) (h2 : H0.length = 2)
    (hH : ∀ r ∈ H0, r.length = d) : matMul d id2 H0 = H0 := by
  match H0, h2 with
  | [r0, r1], _ =>
    have hr0 : r0.length = d := hH r0 (by simp)
    have hr1 : r1.length = d := hH r1 (by simp)
    show [lcomb d [1, 0] [r0, r1], lcomb d [0, 1] [r0, r1]] = [r0, r1]
    have e0 : lcomb d [1, 0] [r0, r1] = r0 := by
      show addVec (smulVec 1 r0) (addVec (smulVec 0 r1) (lcomb d [] [])) = r0
      have hz : addVec (smulVec 0 r1) (lcomb d [] []) = zeroVec d := by
        show addVec (smulVec 0 r1) (zeroVec d) = zeroVec d
        exact addVec_smulVec_zero r1 (zeroVec d) (by simp [zeroVec, hr1])
      rw [hz, smulVec_one]
      have := addVec_zero_right r0
      rwa [hr0] at this
    have e1 : lcomb d [0, 1] [r0, r1] = r1 := by
      show addVec (smulVec 0 r0) (addVec (smulVec 1 r1) (lcomb d [] [])) = r1
      have hz : addVec (smulVec 1 r1) (lcomb d [] []) = r1 := by
        show addVec (smulVec 1 r1) (zeroVec d) = r1
        rw [smulVec_one]
        have := addVec_zero_right r1
        rwa [hr1] at this
      rw [hz]
      exact addVec_smulVec_zero r0 r1 (by rw [hr1, hr0])
    rw [e0, e1]

/-! ## Helper lemma: gather round-trip -/

lemma map_getD_range (T : List (List ℝ)) :
    (List.range T.length).map (fun i => T.getD i []) = T := by
  induction T with
  | nil => simp
  | cons t ts ih =>
    rw [List.length_cons, List.range_succ_eq_map, List.map_cons, List.map_map]
    have htail : List.map ((fun i => (t :: ts).getD i []) ∘ Nat.succ)
        (List.range ts.length) =
        List.map (fun i => ts.getD i []) (List.range ts.length) :=
      List.map_congr_left (fun i _ => by simp)
    rw [htail, ih]
    rfl

/-! ## Claim theorems -/

/-- Claim C1: for every combination of the constructor arguments, once
`super().__init__` returns, `DAGNN.__init__` raises a `NameError`: its
final statement `self.preprocess(adj, x)` references the names `adj`
and `x`, which are bound neither locally, nor at module level, nor as
builtins, so construction never completes. -/
theorem dagnnInit_always_nameError (superInit : Except PyError Unit)
    (norm_adj : PyFloatOrNone) (norm_x : Option String) (K : Int)
    (device : String) (seed : Option Int) (name : Option String)
    (hs : superInit = Except.ok ()) :
    dagnnInit superInit norm_adj norm_x K device seed name =
      Except.error PyError.nameError := by
  subst hs
  rfl

/-- Witness for C1 at concrete constructor arguments. -/
theorem dagnnInit_always_nameError_witness :
    ((Except.ok () : Except PyError Unit) = Except.ok ()) ∧
    dagnnInit (Except.ok ()) PyFloatOrNone.none Option.none 10 "cpu:0"
      Option.none Option.none = Except.error PyError.nameError :=
  ⟨rfl, dagnnInit_always_nameError (Except.ok ()) PyFloatOrNone.none
    Option.none 10 "cpu:0" Option.none Option.none rfl⟩

/-- Claim C9: for every configuration of its arguments, `DAGNN.build`
raises a `NameError` before constructing any layer: the first name in
its evaluation order that resolves in no scope is
`set_equal_in_length`, and every name reference evaluated before that
point constructs no layer. -/
theorem dagnnBuild_always_nameError (hiddens : List ℕ)
    (activations : List String) (dropouts l2_norms : List ℚ) (lr : ℚ)
    (use_bias : Bool) :
    dagnnBuild hiddens activations dropouts l2_norms lr use_bias =
      Except.error PyError.nameError ∧
    buildNameRefs.find? (fun n => !resolves dagnnBuildLocals n) =
      some "set_equal_in_length" ∧
    ∀ m ∈ buildNameRefs.takeWhile (fun n => resolves dagnnBuildLocals n),
      m ∉ layerCtorNames := by
  refine ⟨rfl, rfl, ?_⟩
  decide

/-- Claim C6 (code bug evidence): at the default configuration of
`build`, the code raises a `NameError` — it never reaches any
list-broadcasting step and never raises a `ConfigurationError`, because
the broadcasting helper it calls (`set_equal_in_length`) does not
exist; only `EqualVarLength` was imported. -/
theorem dagnnBuild_default_config_nameError :
    dagnnBuild [64] ["relu"] [1/2] [1/200] (1/100) false =
      Except.error PyError.nameError ∧
    dagnnBuild [64] ["relu"] [1/2] [1/200] (1/100) false ≠
      Except.error PyError.configurationError := by
  refine ⟨rfl, ?_⟩
  intro h
  rw [show dagnnBuild [64] ["relu"] [1/2] [1/200] (1/100) false =
    Except.error PyError.nameError from rfl] at h
  simp at h

/-- Claim C10: if `norm_adj` is falsy (`None`, `0` or `0.0`),
`preprocess` skips adjacency normalization entirely and passes the raw
adjacency on unchanged; for any truthy (nonzero) exponent it applies
`normalize_adj`. -/
theorem preprocessAdj_falsy_skips {Adj : Type}
    (normalize_adj : Adj → ℚ → Adj) (adj : Adj) :
    preprocessAdj normalize_adj PyFloatOrNone.none adj = adj ∧
    preprocessAdj normalize_adj (PyFloatOrNone.val 0) adj = adj ∧
    ∀ q : ℚ, q ≠ 0 →
      preprocessAdj normalize_adj (PyFloatOrNone.val q) adj =
        normalize_adj adj q := by
  refine ⟨rfl, by simp [preprocessAdj, pyTruthy], ?_⟩
  intro q hq
  simp [preprocessAdj, pyTruthy, hq]

/-- Witness for C10: with a concrete normalizer on ℕ, the zero exponent
is skipped while the exponent `-1/2` is applied. -/
theorem preprocessAdj_falsy_skips_witness :
    preprocessAdj (fun (a : ℕ) (_ : ℚ) => a + 1) (PyFloatOrNone.val 0) 5 = 5 ∧
    ((-1 : ℚ) / 2 ≠ 0) ∧
    preprocessAdj (fun (a : ℕ) (_ : ℚ) => a + 1)
      (PyFloatOrNone.val (-1 / 2)) 5 = 6 :=
  ⟨(preprocessAdj_falsy_skips (fun (a : ℕ) (_ : ℚ) => a + 1) 5).2.1,
   by norm_num,
   (preprocessAdj_falsy_skips (fun (a : ℕ) (_ : ℚ) => a + 1) 5).2.2
     (-1 / 2) (by norm_num)⟩


/-- Claim C2: for `K = 1` the propagation operator's output is exactly
`g_0 · H_0 + g_1 · (A · H_0)`, row by row, with no higher-order terms;
and when `A` is the 2-node identity matrix every output row equals
`(g_0 + g_1) · H_0` elementwise. -/
theorem propConv_K1_two_terms (d : ℕ) (W : List ℝ) (b : ℝ)
    (A H0 : List (List ℝ)) (hA : A.length = H0.length)
    (hH : ∀ r ∈ H0, r.length = d) :
    (propConv d 1 W b A H0 = (List.range H0.length).map (fun n =>
      addVec (smulVec (gate W b (H0.getD n [])) (H0.getD n []))
        (smulVec (gate W b ((matMul d A H0).getD n []))
          ((matMul d A H0).getD n [])))) ∧
    (A = id2 → ∀ n < H0.length, (propConv d 1 W b A H0).getD n [] =
      smulVec (gate W b (H0.getD n []) +
          gate W b ((matMul d A H0).getD n []))
        (H0.getD n [])) := by
  have hmain := propConv_one_step d W b A H0 hA hH
  refine ⟨hmain, ?_⟩
  intro hAid n hn
  subst hAid
  have h2 : H0.length = 2 := by
    have : id2.length = 2 := rfl
    omega
  have hm : matMul d id2 H0 = H0 := matMul_id2 d H0 h2 hH
  rw [hmain]
  have hn' : n < (List.range H0.length).length := by simpa using hn
  rw [List.getD_eq_getElem _ _ (by simpa using hn')]
  rw [List.getElem_map, List.getElem_range]
  rw [hm, smulVec_add_distrib]

/-- Witness for C2 on the 2-node identity matrix with a concrete
representation. -/
theorem propConv_K1_two_terms_witness :
    (id2.length = ([[(1 : ℝ)], [2]] : List (List ℝ)).length) ∧
    (∀ r ∈ ([[(1 : ℝ)], [2]] : List (List ℝ)), r.length = 1) ∧
    ((propConv 1 1 [1] 0 id2 [[(1 : ℝ)], [2]]).getD 0 [] =
      smulVec (gate [1] 0 (([[(1 : ℝ)], [2]] : List (List ℝ)).getD 0 []) +
          gate [1] 0 ((matMul 1 id2 [[(1 : ℝ)], [2]]).getD 0 []))
        (([[(1 : ℝ)], [2]] : List (List ℝ)).getD 0 [])) :=
  ⟨rfl, by simp,
   (propConv_K1_two_terms 1 [1] 0 id2 [[(1 : ℝ)], [2]] rfl (by simp)).2
     rfl 0 (by simp)⟩

/-- Claim C3: every retention gate computed by the propagation operator
lies strictly within the open interval (0, 1), because it is produced
by the logistic nonlinearity. -/
theorem gate_strictly_between_zero_one (W : List ℝ) (b : ℝ) (r : List ℝ) :
    0 < gate W b r ∧ gate W b r < 1 := by
  unfold gate sigmoid
  have he : 0 < Real.exp (-(dotR W r + b)) := Real.exp_pos _
  constructor
  · positivity
  · rw [div_lt_one (by linarith)]
    linarith

/-- Claim C4: for every `K ≥ 1` and a well-formed (square,
dimension-matching) adjacency operator, the propagation operator's
output has exactly the same shape (node count × class dimension) as the
input representation `H0`. -/
theorem propConv_preserves_shape (d K : ℕ) (W : List ℝ) (b : ℝ)
    (A H0 : List (List ℝ)) (_hK : 1 ≤ K) (hA : A.length = H0.length)
    (hH : ∀ r ∈ H0, r.length = d) :
    (propConv d K W b A H0).length = H0.length ∧
      ∀ r ∈ propConv d K W b A H0, r.length = d := by
  constructor
  · simp [propConv]
  · intro r hr
    simp only [propConv, List.mem_map, List.mem_range] at hr
    obtain ⟨n, hn, rfl⟩ := hr
    exact gatedRow_length W b d _ (stackRows_rect d A H0 K n hn hA hH)

/-- Witness for C4 at a concrete 1-node graph with d = 2. -/
theorem propConv_preserves_shape_witness :
    ((1 : ℕ) ≤ 1) ∧
    (([[(1 : ℝ)]] : List (List ℝ)).length =
      ([[(1 : ℝ), 2]] : List (List ℝ)).length) ∧
    (∀ r ∈ ([[(1 : ℝ), 2]] : List (List ℝ)), r.length = 2) ∧
    ((propConv 2 1 [1, 0] 0 [[1]] [[(1 : ℝ), 2]]).length =
        ([[(1 : ℝ), 2]] : List (List ℝ)).length ∧
      ∀ r ∈ propConv 2 1 [1, 0] 0 [[1]] [[(1 : ℝ), 2]], r.length = 2) :=
  ⟨le_refl 1, rfl, by simp,
   propConv_preserves_shape 2 1 [1, 0] 0 [[1]] [[(1 : ℝ), 2]]
     (le_refl 1) rfl (by simp)⟩

/-- Claim C5: the forward computation is deterministic — two forward
calls with identical weights, step count, adjacency operator, features
and index set (dropout inactive at inference) yield identical output
logits. -/
theorem forwardDAGNN_deterministic
    (layers layers' : List DenseLayer) (d d' K K' : ℕ) (W W' : List ℝ)
    (b b' : ℝ) (A A' X X' : List (List ℝ)) (idx idx' : List ℕ)
    (hl : layers = layers') (hd : d = d') (hK : K = K') (hW : W = W')
    (hb : b = b') (hA : A = A') (hX : X = X') (hi : idx = idx') :
    forwardDAGNN layers d K W b A X idx =
      forwardDAGNN layers' d' K' W' b' A' X' idx' := by
  subst hl hd hK hW hb hA hX hi
  rfl

/-- Witness for C5 at concrete (equal) inputs. -/
theorem forwardDAGNN_deterministic_witness :
    (([] : List DenseLayer) = []) ∧
    forwardDAGNN [] 1 1 [1] 0 [[1]] [[1]] [0] =
      forwardDAGNN [] 1 1 [1] 0 [[1]] [[1]] [0] :=
  ⟨rfl, forwardDAGNN_deterministic [] [] 1 1 1 1 [1] [1] 0 0 [[1]] [[1]]
    [[1]] [[1]] [0] [0] rfl rfl rfl rfl rfl rfl rfl rfl⟩

/-- Claim C7: a non-positive propagation step count `K` is rejected
with a `ConfigurationError` before any propagation is performed. -/
theorem propConvChecked_rejects_nonpositive_K (d : ℕ) (K : Int)
    (W : List ℝ) (b : ℝ) (A H0 : List (List ℝ)) (hK : K ≤ 0) :
    propConvChecked d K W b A H0 =
      Except.error PyError.configurationError := by
  simp [propConvChecked, hK]

/-- Witness for C7 at `K = 0`. -/
theorem propConvChecked_rejects_nonpositive_K_witness :
    ((0 : Int) ≤ 0) ∧
    propConvChecked 1 0 [1] 0 [[1]] [[1]] =
      Except.error PyError.configurationError :=
  ⟨le_refl 0,
   propConvChecked_rejects_nonpositive_K 1 0 [1] 0 [[1]] [[1]] (le_refl 0)⟩

/-- Claim C8: gathering all node indices `0 .. n-1` in their natural
order returns the original node-indexed tensor unchanged, row for
row. -/
theorem gatherRows_roundtrip (T : List (List ℝ)) :
    gatherRows T (List.range T.length) = Except.ok T := by
  unfold gatherRows
  rw [if_pos]
  · rw [map_getD_range]
  · simp [List.all_eq_true]
